import Mathlib

/-!
Verification of the Geometric Reconstruction Engine of the Draft-Engine
repository (src/ai/server.py and src/ai/vectorize.py).

The Python code works on floating-point pixel coordinates; we model
coordinates as real numbers.  `math.atan2`, `math.degrees`, `math.radians`
and the float `%` operator are modelled by `atan2`, `degrees`, `radians`
and `rmod` below.  All real-valued branch conditions are handled
classically, so the definitions are `noncomputable`; concrete inputs are
evaluated in proofs via `norm_num` together with the special-value lemmas
for `Real.arctan`.
-/

open Real

namespace DraftEngine

open scoped Classical

/-- A 2-D point `(x, y)` in pixel coordinates. -/
abbrev Pt : Type := ℝ × ℝ

/-- A line segment `(x1, y1, x2, y2)`, exactly as the Python code stores it. -/
abbrev Seg : Type := ℝ × ℝ × ℝ × ℝ

/-- A door/opening box `(x, y, w, h)`. -/
abbrev Box : Type := ℝ × ℝ × ℝ × ℝ

/-- An arc `(cx, cy, r, a0, a1)` as produced by `_fit_circles`. -/
abbrev Arc : Type := ℝ × ℝ × ℝ × ℝ × ℝ

/-- First endpoint of a segment. -/
def Seg.p1 (s : Seg) : Pt := (s.1, s.2.1)

/-- Second endpoint of a segment. -/
def Seg.p2 (s : Seg) : Pt := (s.2.2.1, s.2.2.2)

/-- `math.atan2 y x`: the angle of the vector `(x, y)` in `(-π, π]`
(real idealisation; signed zeros do not exist on `ℝ`). -/
noncomputable def atan2 (y x : ℝ) : ℝ :=
  if 0 < x then Real.arctan (y / x)
  else if x < 0 then
    (if 0 ≤ y then Real.arctan (y / x) + π else Real.arctan (y / x) - π)
  else
    (if 0 < y then π / 2 else if y < 0 then -(π / 2) else 0)

/-- `math.degrees`. -/
noncomputable def degrees (x : ℝ) : ℝ := x * (180 / π)

/-- `math.radians`. -/
noncomputable def radians (x : ℝ) : ℝ := x * (π / 180)

/-- Python's float `%` (sign of the divisor): `x % y = x - y * ⌊x / y⌋`. -/
noncomputable def rmod (x y : ℝ) : ℝ := x - y * ⌊x / y⌋

/-- `dist2` from server.py: squared distance between two points. -/
def dist2 (a b : Pt) : ℝ :=
  (a.1 - b.1) * (a.1 - b.1) + (a.2 - b.2) * (a.2 - b.2)

/-- `project_on_segment` from server.py: clamped projection of `p` onto the
segment `a`-`b`, returning the projected point and the clamped parameter. -/
noncomputable def project_on_segment (p a b : Pt) : Pt × ℝ :=
  let vx := b.1 - a.1
  let vy := b.2 - a.2
  let vv := vx * vx + vy * vy
  if vv ≤ 1e-9 then (a, 0)
  else
    let t := max 0 (min 1 (((p.1 - a.1) * vx + (p.2 - a.2) * vy) / vv))
    ((a.1 + t * vx, a.2 + t * vy), t)

/-- `seg_endpoint_proj_dist2` from server.py. -/
noncomputable def seg_endpoint_proj_dist2 (P A B : Pt) : ℝ :=
  dist2 P (project_on_segment P A B).1

/-- `line_angle_deg_xy` from server.py (also inlined in `snap_axis`):
the undirected angle of the segment in degrees, in `[0, 180)`. -/
noncomputable def line_angle_deg_xy (x1 y1 x2 y2 : ℝ) : ℝ :=
  rmod (degrees (atan2 (y2 - y1) (x2 - x1)) + 180) 180

/-- `near_line_duplicate` from server.py, as a proposition.  The early
`return False` on the angle test folds into the first conjunct. -/
noncomputable def near_line_duplicate (a b : Seg) (tol_px ang_deg : ℝ) : Prop :=
  min |line_angle_deg_xy a.1 a.2.1 a.2.2.1 a.2.2.2 -
        line_angle_deg_xy b.1 b.2.1 b.2.2.1 b.2.2.2|
      (180 - |line_angle_deg_xy a.1 a.2.1 a.2.2.1 a.2.2.2 -
        line_angle_deg_xy b.1 b.2.1 b.2.2.1 b.2.2.2|) ≤ ang_deg ∧
  min (seg_endpoint_proj_dist2 a.p1 b.p1 b.p2)
      (seg_endpoint_proj_dist2 a.p2 b.p1 b.p2) ≤ tol_px * tol_px ∧
  min (seg_endpoint_proj_dist2 b.p1 a.p1 a.p2)
      (seg_endpoint_proj_dist2 b.p2 a.p1 a.p2) ≤ tol_px * tol_px

/-- `snap_axis` from server.py: force a near-axis segment exactly
horizontal or vertical by averaging the perpendicular coordinate. -/
noncomputable def snap_axis (p q : Pt) (axis_snap_deg : ℝ) : Pt × Pt :=
  let ang := line_angle_deg_xy p.1 p.2 q.1 q.2
  if min |ang - 0| |ang - 90| ≤ axis_snap_deg then
    if |ang - 90| < |ang - 0| then
      ((0.5 * (p.1 + q.1), p.2), (0.5 * (p.1 + q.1), q.2))
    else
      ((p.1, 0.5 * (p.2 + q.2)), (q.1, 0.5 * (p.2 + q.2)))
  else (p, q)

/-- `snap_axis` applied to a stored 4-tuple segment
(the loop at server.py lines 145-147). -/
noncomputable def snap_seg (d : ℝ) (s : Seg) : Seg :=
  ((snap_axis s.p1 s.p2 d).1.1, (snap_axis s.p1 s.p2 d).1.2,
   (snap_axis s.p1 s.p2 d).2.1, (snap_axis s.p1 s.p2 d).2.2)

/-- Squared length of a segment, as the code computes it
(`dist2((l[0],l[1]),(l[2],l[3]))`). -/
def seg_len2 (s : Seg) : ℝ := dist2 s.p1 s.p2

/-- The snap-and-filter prefix of `refine_lines` (server.py lines 144-148):
snap every segment, then keep only those of squared length `≥ min_len_px²`. -/
noncomputable def snap_filter (axis_snap_deg min_len_px : ℝ)
    (lines : List Seg) : List Seg :=
  (lines.map (snap_seg axis_snap_deg)).filterMap fun l =>
    if seg_len2 l ≥ min_len_px * min_len_px then some l else none

/-- The endpoint-proximity test of the merge loop (server.py lines 164-165):
some endpoint of `s` lies within `merge2` (squared) of some endpoint of `t`. -/
def merge_share (merge2 : ℝ) (s t : Seg) : Prop :=
  dist2 s.p1 t.p1 ≤ merge2 ∨ dist2 s.p1 t.p2 ≤ merge2 ∨
  dist2 s.p2 t.p1 ≤ merge2 ∨ dist2 s.p2 t.p2 ≤ merge2

/-- The angle test of the merge loop (server.py lines 167-169):
`d = |ai - ak|; d = min(d, π - d); d ≤ radians(axis_snap_deg)` on the raw
`atan2` angles of the two segments. -/
noncomputable def merge_angle_ok (axis_snap_deg : ℝ) (s t : Seg) : Prop :=
  min |atan2 (s.2.2.2 - s.2.1) (s.2.2.1 - s.1) -
        atan2 (t.2.2.2 - t.2.1) (t.2.2.1 - t.1)|
      (π - |atan2 (s.2.2.2 - s.2.1) (s.2.2.1 - s.1) -
        atan2 (t.2.2.2 - t.2.1) (t.2.2.1 - t.1)|) ≤ radians axis_snap_deg

/-- First point of minimal key among a nonempty list (ties: the earliest),
i.e. `pts[np.argsort(keys)[0]]` for a stable sort. -/
noncomputable def pick_min (key : Pt → ℝ) (p : Pt) (l : List Pt) : Pt :=
  l.foldl (fun acc q => if key q < key acc then q else acc) p

/-- Last point of maximal key among a nonempty list (ties: the latest),
i.e. `pts[np.argsort(keys)[-1]]` for a stable sort. -/
noncomputable def pick_max (key : Pt → ℝ) (p : Pt) (l : List Pt) : Pt :=
  l.foldl (fun acc q => if key acc ≤ key q then q else acc) p

/-- The merged segment built at server.py lines 170-174: span the two
extreme endpoints among all four, ordered along the dominant axis of `s`. -/
noncomputable def merge_pair (s t : Seg) : Seg :=
  let horiz := |s.2.2.2 - s.2.1| < |s.2.2.1 - s.1|
  let key : Pt → ℝ := fun p => if horiz then p.1 else p.2
  let pmin := pick_min key s.p1 [s.p2, t.p1, t.p2]
  let pmax := pick_max key s.p1 [s.p2, t.p1, t.p2]
  (pmin.1, pmin.2, pmax.1, pmax.2)

/-- The inner `for k` scan of the merge loop (server.py lines 160-175):
find the first not-yet-used partner of `s` that satisfies both the
proximity and the angle test; return the merged segment and the remaining
pool with that partner removed. -/
noncomputable def merge_scan (axis_snap_deg merge2 : ℝ) (s : Seg) :
    List Seg → Option (Seg × List Seg)
  | [] => none
  | t :: ts =>
    if merge_share merge2 s t ∧ merge_angle_ok axis_snap_deg s t then
      some (merge_pair s t, ts)
    else
      match merge_scan axis_snap_deg merge2 s ts with
      | some (m, ts') => some (m, t :: ts')
      | none => none

/-- One full pass of the `while changed` merge loop (server.py lines
153-178), with explicit fuel (the fuel is always at least the list length
at every call site, so the fuel-exhausted branch is never taken).
Returns the new pool and the `changed` flag. -/
noncomputable def merge_pass_f (axis_snap_deg merge2 : ℝ) :
    ℕ → List Seg → List Seg × Bool
  | _, [] => ([], false)
  | 0, L => (L, false)
  | f + 1, s :: rest =>
    match merge_scan axis_snap_deg merge2 s rest with
    | some (m, rest') =>
      (m :: (merge_pass_f axis_snap_deg merge2 f rest').1, true)
    | none =>
      ((s :: (merge_pass_f axis_snap_deg merge2 f rest).1),
       (merge_pass_f axis_snap_deg merge2 f rest).2)

/-- One merge pass over a pool. -/
noncomputable def merge_pass (axis_snap_deg merge2 : ℝ) (L : List Seg) :
    List Seg × Bool :=
  merge_pass_f axis_snap_deg merge2 L.length L

/-- The `while changed` loop (server.py lines 151-178), with explicit fuel.
Each changed pass strictly shrinks the pool, so `L.length` passes always
suffice (see `merge_pass_shrinks`); the loop exits through the
unchanged branch, never through fuel exhaustion. -/
noncomputable def merge_loop_f (axis_snap_deg merge2 : ℝ) :
    ℕ → List Seg → List Seg
  | 0, L => L
  | f + 1, L =>
    if (merge_pass axis_snap_deg merge2 L).2 then
      merge_loop_f axis_snap_deg merge2 f (merge_pass axis_snap_deg merge2 L).1
    else L

/-- The merge fixed-point loop of `refine_lines`. -/
noncomputable def merge_loop (axis_snap_deg merge2 : ℝ) (L : List Seg) :
    List Seg :=
  merge_loop_f axis_snap_deg merge2 L.length L

/-- The per-endpoint move of the extension pass (server.py lines 186-191):
scan every other segment in order; whenever the clamped projection
parameter is strictly inside `(0,1)` and the projection is within
`extend2` (squared), move the endpoint there.  `P` stays the stale
original endpoint throughout, as in the code; the last qualifying
partner wins. -/
noncomputable def move_endpoint (extend2 : ℝ) (P : Pt) (others : List Seg) :
    Pt :=
  others.foldl
    (fun acc o =>
      let Qt := project_on_segment P o.p1 o.p2
      if 0 < Qt.2 ∧ Qt.2 < 1 ∧ dist2 P Qt.1 ≤ extend2 then Qt.1 else acc)
    P

/-- The extension pass of `refine_lines` (server.py lines 180-191): for each
index in order, rebuild the segment from its two (independently) moved
endpoints, against the current state of the list. -/
noncomputable def extend_pass (extend2 : ℝ) (L : List Seg) : List Seg :=
  (List.range L.length).foldl
    (fun acc idx =>
      match acc[idx]? with
      | some s =>
        let others := acc.eraseIdx idx
        let e1 := move_endpoint extend2 s.p1 others
        let e2 := move_endpoint extend2 s.p2 others
        acc.set idx (e1.1, e1.2, e2.1, e2.2)
      | none => acc)
    L

/-- `refine_lines` from server.py: snap + length filter, merge to a fixed
point, then the endpoint-extension pass. -/
noncomputable def refine_lines (lines : List Seg)
    (axis_snap_deg merge_px extend_px min_len_px : ℝ) : List Seg :=
  extend_pass (extend_px * extend_px)
    (merge_loop axis_snap_deg (merge_px * merge_px)
      (snap_filter axis_snap_deg min_len_px lines))

/-- The door-box test of `add_room_closures` (server.py lines 205-208):
the candidate's bounding box touches the box `(x, y, w, h)`. -/
def box_overlap (p q : Pt) (b : Box) : Prop :=
  max p.1 q.1 ≥ b.1 ∧ min p.1 q.1 ≤ b.1 + b.2.2.1 ∧
  max p.2 q.2 ≥ b.2.1 ∧ min p.2 q.2 ≤ b.2.1 + b.2.2.2

/-- One candidate closing segment of `add_room_closures` (server.py lines
202-209): within `close_px`, snapped, not shorter than `min_len_px`, and
not overlapping any door box. -/
noncomputable def closure_candidate (door_boxes : List Box)
    (close_px axis_snap_deg min_len_px : ℝ) (e f : Pt) : Option Seg :=
  if dist2 e f ≤ close_px * close_px then
    let pq := snap_axis e f axis_snap_deg
    if dist2 pq.1 pq.2 < min_len_px * min_len_px then none
    else if ∃ b ∈ door_boxes, box_overlap pq.1 pq.2 b then none
    else some (pq.1.1, pq.1.2, pq.2.1, pq.2.2)
  else none

/-- The double loop over endpoint pairs `i < j` of `add_room_closures`
(server.py lines 200-209), in the code's emission order. -/
noncomputable def closures_aux (door_boxes : List Box)
    (close_px axis_snap_deg min_len_px : ℝ) : List Pt → List Seg
  | [] => []
  | e :: rest =>
    rest.filterMap (closure_candidate door_boxes close_px axis_snap_deg
      min_len_px e) ++
    closures_aux door_boxes close_px axis_snap_deg min_len_px rest

/-- `add_room_closures` from server.py. -/
noncomputable def add_room_closures (lines : List Seg)
    (door_boxes : List Box) (close_px axis_snap_deg min_len_px : ℝ) :
    List Seg :=
  closures_aux door_boxes close_px axis_snap_deg min_len_px
    (lines.flatMap fun s => [s.p1, s.p2])

/-- The algebraic circle-fit centre of `_fit_circles` (vectorize.py lines
96-109).  `np.linalg.solve` on the 2×2 normal equations is modelled by
Cramer's rule; the `LinAlgError` raised on a singular system corresponds
to a zero determinant and yields `none` (the window is skipped). -/
noncomputable def circle_center (chunk : List Pt) : Option Pt :=
  let n : ℝ := chunk.length
  let xm := (chunk.map fun p => p.1).sum / n
  let ym := (chunk.map fun p => p.2).sum / n
  let us := chunk.map fun p => p.1 - xm
  let vs := chunk.map fun p => p.2 - ym
  let Suu := (us.map fun u => u * u).sum
  let Svv := (vs.map fun v => v * v).sum
  let Suv := ((us.zip vs).map fun w => w.1 * w.2).sum
  let Suuu := (us.map fun u => u * u * u).sum
  let Svvv := (vs.map fun v => v * v * v).sum
  let Suvv := ((us.zip vs).map fun w => w.1 * w.2 * w.2).sum
  let Svuu := ((us.zip vs).map fun w => w.2 * w.1 * w.1).sum
  let det := Suu * Svv - Suv * Suv
  if det = 0 then none
  else
    let b1 := 0.5 * (Suuu + Suvv)
    let b2 := 0.5 * (Svvv + Svuu)
    some (xm + (Svv * b1 - Suv * b2) / det, ym + (Suu * b2 - Suv * b1) / det)

/-- The angular extent formula of `_fit_circles` (vectorize.py line 114):
`abs(((a1 - a0 + 180) % 360) - 180)`. -/
noncomputable def arc_extent (a0 a1 : ℝ) : ℝ :=
  |rmod (a1 - a0 + 180) 360 - 180|

/-- One window of `_fit_circles` (vectorize.py lines 94-116): fit the
circle, compute the mean radius and the endpoint angles, and accept the
arc only if the extent and radius bounds hold. -/
noncomputable def fit_window (chunk : List Pt) (min_arc_deg : ℝ) :
    Option Arc :=
  match circle_center chunk with
  | none => none
  | some c =>
    let r := (chunk.map fun p =>
      Real.sqrt ((p.1 - c.1) * (p.1 - c.1) + (p.2 - c.2) * (p.2 - c.2))).sum /
      (chunk.length : ℝ)
    let angs := chunk.map fun p => degrees (atan2 (p.2 - c.2) (p.1 - c.1))
    let a0 := angs.headD 0
    let a1 := angs.getLastD 0
    if arc_extent a0 a1 ≥ min_arc_deg ∧ 5 < r ∧ r < 1e5 then
      some (c.1, c.2, r, a0, a1)
    else none

/-- The sliding-window loop of `_fit_circles` (vectorize.py lines 92-117),
with explicit fuel.  `step ≥ 8` at the call site, so `i` advances by at
least 4 every iteration and a fuel of `n` is never exhausted before the
loop condition fails. -/
noncomputable def fit_loop (pts : List Pt) (n step : ℕ) (min_arc_deg : ℝ) :
    ℕ → ℕ → List Arc
  | 0, _ => []
  | f + 1, i =>
    if i + step < n then
      match fit_window ((pts.drop i).take step) min_arc_deg with
      | some a => a :: fit_loop pts n step min_arc_deg f (i + step / 2)
      | none => fit_loop pts n step min_arc_deg f (i + step / 2)
    else []

/-- `_fit_circles` from vectorize.py. -/
noncomputable def fit_circles (contour : List Pt) (min_arc_deg : ℝ) :
    List Arc :=
  let n := contour.length
  if n < 8 then []
  else fit_loop contour n (max 8 (n / 12)) min_arc_deg n 0

/-- Modelled from the spec: "their undirected orientations agree within
`axisSnapDeg`" — the undirected angular difference of the two segments'
mod-180° angles is at most the tolerance.  (This is the same formula the
repository itself uses for `d_ang` in `near_line_duplicate`.)  Used only
to compare the merge loop's actual angle test against the spec's wording. -/
noncomputable def spec_orientations_agree (s t : Seg) (tol_deg : ℝ) : Prop :=
  min |line_angle_deg_xy s.1 s.2.1 s.2.2.1 s.2.2.2 -
        line_angle_deg_xy t.1 t.2.1 t.2.2.1 t.2.2.2|
      (180 - |line_angle_deg_xy s.1 s.2.1 s.2.2.1 s.2.2.2 -
        line_angle_deg_xy t.1 t.2.1 t.2.2.1 t.2.2.2|) ≤ tol_deg

/-! ### Evaluation lemmas for the angle primitives -/

theorem rmod_eq_sub (x y : ℝ) (k : ℤ) (hy : 0 < y)
    (h1 : (k : ℝ) * y ≤ x) (h2 : x < ((k : ℝ) + 1) * y) :
    rmod x y = x - y * k := by
  have hk : ⌊x / y⌋ = k := by
    rw [Int.floor_eq_iff]
    constructor
    · exact (le_div_iff₀ hy).mpr h1
    · exact (div_lt_iff₀ hy).mpr (by linarith)
  rw [rmod, hk]

theorem atan2_zero_of_pos {x : ℝ} (hx : 0 < x) : atan2 0 x = 0 := by
  rw [atan2, if_pos hx, zero_div, Real.arctan_zero]

theorem atan2_zero_of_neg {x : ℝ} (hx : x < 0) : atan2 0 x = π := by
  rw [atan2, if_neg (by linarith), if_pos hx, if_pos le_rfl, zero_div,
    Real.arctan_zero, zero_add]

theorem atan2_zero_zero : atan2 0 0 = 0 := by
  rw [atan2, if_neg (by norm_num), if_neg (by norm_num)]
  norm_num

theorem atan2_pos_zero {y : ℝ} (hy : 0 < y) : atan2 y 0 = π / 2 := by
  rw [atan2, if_neg (by norm_num), if_neg (by norm_num), if_pos hy]

theorem atan2_neg_zero {y : ℝ} (hy : y < 0) : atan2 y 0 = -(π / 2) := by
  rw [atan2, if_neg (by norm_num), if_neg (by norm_num),
    if_neg (by linarith), if_pos hy]

theorem atan2_of_pos {y x : ℝ} (hx : 0 < x) : atan2 y x = Real.arctan (y / x) := by
  rw [atan2, if_pos hx]

theorem degrees_zero : degrees 0 = 0 := by rw [degrees]; ring

theorem degrees_pi : degrees π = 180 := by
  rw [degrees]; field_simp

theorem degrees_pi_div_two : degrees (π / 2) = 90 := by
  rw [degrees]; field_simp; ring

theorem degrees_neg_pi_div_two : degrees (-(π / 2)) = -90 := by
  rw [degrees]; field_simp; ring

/-- Any horizontal (or degenerate) segment has mod-180° angle exactly 0. -/
theorem line_angle_horiz (x1 x2 y : ℝ) : line_angle_deg_xy x1 y x2 y = 0 := by
  rw [line_angle_deg_xy, sub_self]
  rcases lt_trichotomy (x2 - x1) 0 with h | h | h
  · rw [atan2_zero_of_neg h, degrees_pi,
      rmod_eq_sub _ _ 2 (by norm_num) (by norm_num) (by norm_num)]
    norm_num
  · rw [h, atan2_zero_zero, degrees_zero,
      rmod_eq_sub _ _ 1 (by norm_num) (by norm_num) (by norm_num)]
    norm_num
  · rw [atan2_zero_of_pos h, degrees_zero,
      rmod_eq_sub _ _ 1 (by norm_num) (by norm_num) (by norm_num)]
    norm_num

/-- Any non-degenerate vertical segment has mod-180° angle exactly 90. -/
theorem line_angle_vert (x y1 y2 : ℝ) (h : y1 ≠ y2) :
    line_angle_deg_xy x y1 x y2 = 90 := by
  rw [line_angle_deg_xy, sub_self]
  rcases lt_trichotomy (y2 - y1) 0 with hy | hy | hy
  · rw [atan2_neg_zero hy, degrees_neg_pi_div_two,
      rmod_eq_sub _ _ 0 (by norm_num) (by norm_num) (by norm_num)]
    norm_num
  · exact absurd (by linarith : y1 = y2) h
  · rw [atan2_pos_zero hy, degrees_pi_div_two,
      rmod_eq_sub _ _ 1 (by norm_num) (by norm_num) (by norm_num)]
    norm_num

/-- `snap_axis` on a segment whose mod-180° angle is 0 snaps horizontally. -/
theorem snap_axis_ang0 (p q : Pt) (d : ℝ) (hd : 0 ≤ d)
    (h : line_angle_deg_xy p.1 p.2 q.1 q.2 = 0) :
    snap_axis p q d = ((p.1, 0.5 * (p.2 + q.2)), (q.1, 0.5 * (p.2 + q.2))) := by
  rw [snap_axis]
  simp only [h]
  rw [if_pos (by rw [sub_zero, abs_zero]; simpa using hd),
    if_neg (by rw [sub_zero, abs_zero]; norm_num)]

/-- `snap_axis` on a segment whose mod-180° angle is 90 snaps vertically. -/
theorem snap_axis_ang90 (p q : Pt) (d : ℝ) (hd : 0 ≤ d)
    (h : line_angle_deg_xy p.1 p.2 q.1 q.2 = 90) :
    snap_axis p q d = ((0.5 * (p.1 + q.1), p.2), (0.5 * (p.1 + q.1), q.2)) := by
  rw [snap_axis]
  simp only [h]
  rw [if_pos (by rw [sub_self, abs_zero]; simpa using hd),
    if_pos (by rw [sub_self, abs_zero, sub_zero]; norm_num)]

/-- A horizontal segment passes through `snap_axis` unchanged. -/
theorem snap_seg_horiz (d x1 x2 y : ℝ) (hd : 0 ≤ d) :
    snap_seg d (x1, y, x2, y) = (x1, y, x2, y) := by
  have h := snap_axis_ang0 (p := (x1, y)) (q := (x2, y)) d hd
    (by simpa using line_angle_horiz x1 x2 y)
  rw [snap_seg]
  simp only [Seg.p1, Seg.p2] at h ⊢
  rw [h]
  norm_num
  ring

/-- A vertical segment passes through `snap_axis` unchanged. -/
theorem snap_seg_vert (d x y1 y2 : ℝ) (hd : 0 ≤ d) :
    snap_seg d (x, y1, x, y2) = (x, y1, x, y2) := by
  by_cases hy : y1 = y2
  · subst hy; exact snap_seg_horiz d x x y1 hd
  · have h := snap_axis_ang90 (p := (x, y1)) (q := (x, y2)) d hd
      (by simpa using line_angle_vert x y1 y2 hy)
    rw [snap_seg]
    simp only [Seg.p1, Seg.p2] at h ⊢
    rw [h]
    norm_num
    ring

/-! ### Claim theorems -/

/-- C1: for every pair of points whose mod-180° segment angle deviates
from 0° or from 90° by at most `axis_snap_deg`, `snap_axis` returns a
segment whose angle is exactly 0° (horizontal, shared `y` = mean of the
input `y`s) or exactly 90° (vertical, shared `x` = mean of the input
`x`s); otherwise the endpoints are returned unchanged. -/
theorem snap_axis_spec (p q : Pt) (d : ℝ) :
    ((|line_angle_deg_xy p.1 p.2 q.1 q.2 - 0| ≤ d ∨
      |line_angle_deg_xy p.1 p.2 q.1 q.2 - 90| ≤ d) →
      (snap_axis p q d =
          ((p.1, 0.5 * (p.2 + q.2)), (q.1, 0.5 * (p.2 + q.2))) ∧
        line_angle_deg_xy p.1 (0.5 * (p.2 + q.2)) q.1 (0.5 * (p.2 + q.2)) = 0) ∨
      (snap_axis p q d =
          ((0.5 * (p.1 + q.1), p.2), (0.5 * (p.1 + q.1), q.2)) ∧
        line_angle_deg_xy (0.5 * (p.1 + q.1)) p.2 (0.5 * (p.1 + q.1)) q.2 = 90)) ∧
    (¬(|line_angle_deg_xy p.1 p.2 q.1 q.2 - 0| ≤ d ∨
       |line_angle_deg_xy p.1 p.2 q.1 q.2 - 90| ≤ d) →
      snap_axis p q d = (p, q)) := by
  constructor
  · intro h
    have hcond : min |line_angle_deg_xy p.1 p.2 q.1 q.2 - 0|
        |line_angle_deg_xy p.1 p.2 q.1 q.2 - 90| ≤ d := min_le_iff.mpr h
    by_cases hv : |line_angle_deg_xy p.1 p.2 q.1 q.2 - 90| <
        |line_angle_deg_xy p.1 p.2 q.1 q.2 - 0|
    · right
      have hne : p.2 ≠ q.2 := by
        intro hy
        have h0 : line_angle_deg_xy p.1 p.2 q.1 q.2 = 0 := by
          rw [hy]; exact line_angle_horiz p.1 q.1 q.2
        rw [h0] at hv
        simp at hv
        linarith [abs_nonneg (0 - (90 : ℝ))]
      refine ⟨?_, line_angle_vert _ p.2 q.2 hne⟩
      rw [snap_axis, if_pos hcond, if_pos hv]
    · left
      refine ⟨?_, line_angle_horiz p.1 q.1 (0.5 * (p.2 + q.2))⟩
      rw [snap_axis, if_pos hcond, if_neg hv]
  · intro h
    rw [snap_axis, if_neg fun hmin => h (min_le_iff.mp hmin)]

/-- Witness for C1: a 10-px horizontal segment is snapped (to itself, with
angle exactly 0), and a 45° segment is outside the tolerance and passes
through unchanged. -/
theorem snap_axis_spec_witness :
    ((|line_angle_deg_xy (0 : ℝ) 0 10 0 - 0| ≤ 6 ∨
      |line_angle_deg_xy (0 : ℝ) 0 10 0 - 90| ≤ 6) ∧
     ((snap_axis ((0 : ℝ), (0 : ℝ)) (10, 0) 6 =
          (((0 : ℝ), 0.5 * ((0 : ℝ) + 0)), (10, 0.5 * ((0 : ℝ) + 0))) ∧
        line_angle_deg_xy (0 : ℝ) (0.5 * ((0 : ℝ) + 0)) 10
          (0.5 * ((0 : ℝ) + 0)) = 0) ∨
      (snap_axis ((0 : ℝ), (0 : ℝ)) (10, 0) 6 =
          ((0.5 * ((0 : ℝ) + 10), (0 : ℝ)), (0.5 * ((0 : ℝ) + 10), 0)) ∧
        line_angle_deg_xy (0.5 * ((0 : ℝ) + 10)) (0 : ℝ)
          (0.5 * ((0 : ℝ) + 10)) 0 = 90))) ∧
    (¬(|line_angle_deg_xy (0 : ℝ) 0 10 10 - 0| ≤ 6 ∨
       |line_angle_deg_xy (0 : ℝ) 0 10 10 - 90| ≤ 6) ∧
      snap_axis ((0 : ℝ), (0 : ℝ)) (10, 10) 6 = ((0, 0), (10, 10))) := by
  have hang0 : line_angle_deg_xy (0 : ℝ) 0 10 0 = 0 := line_angle_horiz 0 10 0
  have hang45 : line_angle_deg_xy (0 : ℝ) 0 10 10 = 45 := by
    rw [line_angle_deg_xy]
    have h1 : atan2 ((10 : ℝ) - 0) ((10 : ℝ) - 0) = π / 4 := by
      rw [atan2_of_pos (by norm_num : (0 : ℝ) < 10 - 0)]
      norm_num
    rw [h1]
    have h2 : degrees (π / 4) + 180 = 225 := by
      rw [degrees]; field_simp; ring
    rw [h2, rmod_eq_sub _ _ 1 (by norm_num) (by norm_num) (by norm_num)]
    norm_num
  have hno : ¬(|line_angle_deg_xy (0 : ℝ) 0 10 10 - 0| ≤ 6 ∨
      |line_angle_deg_xy (0 : ℝ) 0 10 10 - 90| ≤ 6) := by
    rw [hang45]
    rintro (h | h) <;> rw [abs_le] at h <;>
      (obtain ⟨ha, hb⟩ := h; linarith)
  have hyes : |line_angle_deg_xy (0 : ℝ) 0 10 0 - 0| ≤ 6 ∨
      |line_angle_deg_xy (0 : ℝ) 0 10 0 - 90| ≤ 6 := by
    left; rw [hang0]; norm_num
  exact ⟨⟨hyes, (snap_axis_spec ((0 : ℝ), (0 : ℝ)) ((10 : ℝ), (0 : ℝ)) 6).1 hyes⟩,
    hno, (snap_axis_spec ((0 : ℝ), (0 : ℝ)) ((10 : ℝ), (10 : ℝ)) 6).2 hno⟩

/-- C5: the duplicate test is symmetric in its two segment arguments, for
every tolerance pair. -/
theorem near_line_duplicate_symm (a b : Seg) (tol_px ang_deg : ℝ) :
    near_line_duplicate a b tol_px ang_deg ↔
    near_line_duplicate b a tol_px ang_deg := by
  rw [near_line_duplicate, near_line_duplicate]
  constructor <;> rintro ⟨h1, h2, h3⟩ <;>
    exact ⟨by rw [abs_sub_comm]; exact h1, h3, h2⟩

/-- C10: `snap_axis` preserves the segment midpoint, whether or not a snap
occurs. -/
theorem snap_axis_midpoint (p q : Pt) (d : ℝ) :
    0.5 * ((snap_axis p q d).1.1 + (snap_axis p q d).2.1) =
      0.5 * (p.1 + q.1) ∧
    0.5 * ((snap_axis p q d).1.2 + (snap_axis p q d).2.2) =
      0.5 * (p.2 + q.2) := by
  rw [snap_axis]
  split_ifs <;> refine ⟨?_, ?_⟩ <;> (try norm_num) <;> (try ring)

/-- A horizontal pair of points passes through `snap_axis` unchanged. -/
theorem snap_axis_horiz_pts (d x1 x2 y : ℝ) (hd : 0 ≤ d) :
    snap_axis (x1, y) (x2, y) d = ((x1, y), (x2, y)) := by
  have h := snap_axis_ang0 (x1, y) (x2, y) d hd
    (by simpa using line_angle_horiz x1 x2 y)
  rw [h]
  norm_num
  ring

/-- A vertical pair of points passes through `snap_axis` unchanged. -/
theorem snap_axis_vert_pts (d x y1 y2 : ℝ) (hd : 0 ≤ d) :
    snap_axis (x, y1) (x, y2) d = ((x, y1), (x, y2)) := by
  by_cases hy : y1 = y2
  · subst hy; exact snap_axis_horiz_pts d x x y1 hd
  · have h := snap_axis_ang90 (x, y1) (x, y2) d hd
      (by simpa using line_angle_vert x y1 y2 hy)
    rw [h]
    norm_num
    ring

/-- C2 (code bug): the merge scan accepts — and merges — a perfectly
horizontal segment with a perfectly vertical one.  Their raw `atan2`
angles are `π` and `-π/2`, so `|ai - ak| = 3π/2 > π` and the code's
`min(d, π - d)` is the negative number `-π/2`, which passes the
`≤ radians(axis_snap_deg)` test for any nonnegative tolerance.  The
claim (and the spec) instead require the undirected orientations to
agree within `axisSnapDeg`; these two segments differ by 90°. -/
theorem merge_scan_merges_perpendicular :
    (merge_scan 6 36 ((0 : ℝ), 0, -20, 0) [((1 : ℝ), 1, 1, -19)]).isSome = true ∧
    ¬spec_orientations_agree ((0 : ℝ), 0, -20, 0) ((1 : ℝ), 1, 1, -19) 6 := by
  have hpi := Real.pi_pos
  constructor
  · have hshare : merge_share 36 ((0 : ℝ), 0, -20, 0) ((1 : ℝ), 1, 1, -19) := by
      left
      simp only [merge_share, Seg.p1, Seg.p2, dist2]
      norm_num
    have hang : merge_angle_ok 6 ((0 : ℝ), 0, -20, 0) ((1 : ℝ), 1, 1, -19) := by
      rw [merge_angle_ok]
      norm_num
      right
      rw [atan2_zero_of_neg (by norm_num : (-20 : ℝ) < 0),
        atan2_neg_zero (by norm_num : (-20 : ℝ) < 0), sub_neg_eq_add,
        abs_of_nonneg (by linarith : (0 : ℝ) ≤ π + π / 2), radians]
      linarith
    simp only [merge_scan]
    rw [if_pos ⟨hshare, hang⟩]
    rfl
  · intro hagree
    rw [spec_orientations_agree] at hagree
    have h1 : line_angle_deg_xy (0 : ℝ) 0 (-20) 0 = 0 := line_angle_horiz 0 (-20) 0
    have h2 : line_angle_deg_xy (1 : ℝ) 1 1 (-19) = 90 :=
      line_angle_vert 1 1 (-19) (by norm_num)
    rw [h1, h2] at hagree
    norm_num at hagree

/-- C9: every core stage maps an empty (or too-small) input collection to
an empty output collection: `refine_lines` and `add_room_closures` on an
empty segment list return `[]`, and `_fit_circles` on a contour with fewer
than 8 points returns `[]`. -/
theorem empty_inputs_give_empty_outputs (a b c d e f g m : ℝ)
    (boxes : List Box) (contour : List Pt) (h : contour.length < 8) :
    refine_lines [] a b c d = [] ∧
    add_room_closures [] boxes e f g = [] ∧
    fit_circles contour m = [] := by
  refine ⟨?_, ?_, ?_⟩
  · rw [refine_lines, snap_filter]
    simp only [List.map_nil, List.filterMap_nil]
    rw [merge_loop]
    simp only [List.length_nil, merge_loop_f]
    rw [extend_pass]
    simp
  · rw [add_room_closures]
    simp only [List.flatMap_nil, closures_aux]
  · rw [fit_circles]
    exact if_pos h

/-- Witness for C9 at concrete parameters and a one-point contour. -/
theorem empty_inputs_give_empty_outputs_witness :
    refine_lines [] 6 6 10 12 = [] ∧
    add_room_closures [] [((0 : ℝ), 0, 1, 1)] 8 6 12 = [] ∧
    fit_circles [((0 : ℝ), (0 : ℝ))] 20 = [] :=
  empty_inputs_give_empty_outputs 6 6 10 12 8 6 12 20
    [((0 : ℝ), 0, 1, 1)] [((0 : ℝ), (0 : ℝ))] (by simp)

/-- Every segment produced by the pair loop of `add_room_closures` avoids
every door box. -/
theorem closures_aux_no_overlap (boxes : List Box) (cp tol ml : ℝ)
    (ends : List Pt) (s : Seg) (hs : s ∈ closures_aux boxes cp tol ml ends)
    (b : Box) (hb : b ∈ boxes) : ¬box_overlap s.p1 s.p2 b := by
  induction ends with
  | nil => simp [closures_aux] at hs
  | cons e rest ih =>
    rw [closures_aux, List.mem_append] at hs
    rcases hs with hs | hs
    · obtain ⟨f, _, heq⟩ := List.mem_filterMap.mp hs
      simp only [closure_candidate] at heq
      split_ifs at heq with h1 h2 h3
      obtain ⟨rfl⟩ := heq
      intro hov
      exact h3 ⟨b, hb, by
        simpa [Seg.p1, Seg.p2, Prod.mk.eta] using hov⟩
    · exact ih hs

/-- C6: no segment returned by `add_room_closures` has a bounding box that
overlaps any supplied door box (overlap in the sense of the code's
closed-interval test `box_overlap`). -/
theorem add_room_closures_no_door_overlap (lines : List Seg)
    (boxes : List Box) (cp tol ml : ℝ) (s : Seg)
    (hs : s ∈ add_room_closures lines boxes cp tol ml)
    (b : Box) (hb : b ∈ boxes) : ¬box_overlap s.p1 s.p2 b := by
  rw [add_room_closures] at hs
  exact closures_aux_no_overlap boxes cp tol ml _ s hs b hb

/-! ### Structural lemmas about the merge loop -/

/-- A successful scan removes exactly one element from the pool. -/
theorem merge_scan_length {tol m2 : ℝ} {s : Seg} :
    ∀ {l : List Seg} {mg : Seg} {l' : List Seg},
      merge_scan tol m2 s l = some (mg, l') → l'.length + 1 = l.length := by
  intro l
  induction l with
  | nil => intro mg l' h; simp [merge_scan] at h
  | cons t ts ih =>
    intro mg l' h
    simp only [merge_scan] at h
    split_ifs at h with hc
    · rw [Option.some.injEq, Prod.mk.injEq] at h
      obtain ⟨-, rfl⟩ := h
      simp
    · cases hrec : merge_scan tol m2 s ts with
      | none => rw [hrec] at h; simp at h
      | some p =>
        obtain ⟨m0, ts0⟩ := p
        rw [hrec] at h
        simp only [Option.some.injEq, Prod.mk.injEq] at h
        obtain ⟨-, rfl⟩ := h
        have := ih hrec
        simp only [List.length_cons]
        omega

/-- A merge pass never grows the pool, and a changed pass strictly
shrinks it. -/
theorem merge_pass_f_length (tol m2 : ℝ) :
    ∀ (f : ℕ) (L : List Seg), L.length ≤ f →
      (merge_pass_f tol m2 f L).1.length ≤ L.length ∧
      ((merge_pass_f tol m2 f L).2 = true →
        (merge_pass_f tol m2 f L).1.length < L.length) := by
  intro f
  induction f with
  | zero =>
    intro L hL
    have hnil : L = [] := List.eq_nil_of_length_eq_zero (Nat.le_zero.mp hL)
    subst hnil
    simp [merge_pass_f]
  | succ f ih =>
    intro L hL
    cases L with
    | nil => simp [merge_pass_f]
    | cons s rest =>
      rw [List.length_cons] at hL
      cases hscan : merge_scan tol m2 s rest with
      | some p =>
        obtain ⟨m, rest'⟩ := p
        have hlen := merge_scan_length hscan
        have hrec := ih rest' (by omega)
        simp only [merge_pass_f, hscan, List.length_cons]
        refine ⟨by omega, fun _ => by omega⟩
      | none =>
        have hrec := ih rest (by omega)
        simp only [merge_pass_f, hscan, List.length_cons]
        refine ⟨by omega, fun hch => ?_⟩
        have := hrec.2 hch
        omega

/-- After the merge loop terminates, one more pass reports no change:
the `while changed` loop really has reached a fixed point. -/
theorem merge_loop_f_stable (tol m2 : ℝ) :
    ∀ (f : ℕ) (L : List Seg), L.length ≤ f →
      (merge_pass tol m2 (merge_loop_f tol m2 f L)).2 = false := by
  intro f
  induction f with
  | zero =>
    intro L hL
    have hnil : L = [] := List.eq_nil_of_length_eq_zero (Nat.le_zero.mp hL)
    subst hnil
    simp [merge_loop_f, merge_pass, merge_pass_f]
  | succ f ih =>
    intro L hL
    simp only [merge_loop_f]
    by_cases hch : (merge_pass tol m2 L).2
    · rw [if_pos hch]
      apply ih
      have hch' := hch
      rw [merge_pass] at hch'
      have hlt := (merge_pass_f_length tol m2 L.length L le_rfl).2 hch'
      rw [merge_pass]
      omega
    · rw [if_neg hch]
      simpa using hch

/-- The scan of an empty pool finds nothing. -/
theorem merge_scan_nil (tol m2 : ℝ) (s : Seg) : merge_scan tol m2 s [] = none :=
  rfl

/-- One pass over a one-element pool changes nothing. -/
theorem merge_pass_singleton (tol m2 : ℝ) (s : Seg) :
    merge_pass tol m2 [s] = ([s], false) := by
  rw [merge_pass]
  simp only [List.length_cons, List.length_nil, Nat.zero_add]
  simp only [merge_pass_f, merge_scan_nil]

/-- The merge loop on a one-element pool does nothing. -/
theorem merge_loop_singleton (tol m2 : ℝ) (s : Seg) :
    merge_loop tol m2 [s] = [s] := by
  rw [merge_loop]
  simp only [List.length_cons, List.length_nil, Nat.zero_add]
  simp only [merge_loop_f, merge_pass_singleton]
  simp

/-- The merge loop on a two-element pool whose scan finds no partner
does nothing. -/
theorem merge_loop_pair_none (tol m2 : ℝ) (s t : Seg)
    (h : merge_scan tol m2 s [t] = none) :
    merge_loop tol m2 [s, t] = [s, t] := by
  have h2 : merge_pass tol m2 [s, t] = ([s, t], false) := by
    rw [merge_pass]
    simp only [List.length_cons, List.length_nil, Nat.zero_add, Nat.reduceAdd]
    simp only [merge_pass_f, h, merge_scan_nil]
  rw [merge_loop]
  simp only [List.length_cons, List.length_nil, Nat.zero_add, Nat.reduceAdd]
  simp only [merge_loop_f, h2]
  simp

/-- The merge loop on a two-element pool whose scan merges the pair
yields exactly the merged segment. -/
theorem merge_loop_pair_some (tol m2 : ℝ) (s t m : Seg)
    (h : merge_scan tol m2 s [t] = some (m, [])) :
    merge_loop tol m2 [s, t] = [m] := by
  have h2 : merge_pass tol m2 [s, t] = ([m], true) := by
    rw [merge_pass]
    simp only [List.length_cons, List.length_nil, Nat.zero_add, Nat.reduceAdd]
    simp only [merge_pass_f, h, merge_scan_nil]
  rw [merge_loop]
  simp only [List.length_cons, List.length_nil, Nat.zero_add, Nat.reduceAdd]
  simp only [merge_loop_f, h2, merge_pass_singleton]
  simp

/-- The extension pass on a one-element pool does nothing (there is no
other segment to project onto). -/
theorem extend_pass_singleton (e : ℝ) (s : Seg) : extend_pass e [s] = [s] := by
  rw [extend_pass]
  simp [List.range_succ, move_endpoint, Seg.p1, Seg.p2]

/-- C4 (amended): the `while changed` merge loop is idempotent — running
it again on its own output changes nothing.  (The full `refine_lines`
stage is not idempotent; see the counterexample.) -/
theorem merge_loop_idem (tol m2 : ℝ) (L : List Seg) :
    merge_loop tol m2 (merge_loop tol m2 L) = merge_loop tol m2 L := by
  have hstable := merge_loop_f_stable tol m2 L.length L le_rfl
  simp only [merge_loop]
  cases hR : merge_loop_f tol m2 L.length L with
  | nil => simp [merge_loop_f]
  | cons r rs =>
    rw [hR] at hstable
    simp only [List.length_cons, merge_loop_f, hstable]
    simp

/-! ### Concrete evaluations of the room-closure synthesizer -/

/-- A pair of endpoints farther apart than `close_px` yields no candidate. -/
theorem closure_candidate_far (boxes : List Box) (cp d ml : ℝ) (e f : Pt)
    (h : ¬dist2 e f ≤ cp * cp) :
    closure_candidate boxes cp d ml e f = none := by
  simp only [closure_candidate]
  rw [if_neg h]

/-- `add_room_closures` on one 20-px segment with a far-away door box and a
large `close_px`: the candidate joining the segment's own endpoints
survives. -/
theorem closures_ex_far_box :
    add_room_closures [((0 : ℝ), 0, 20, 0)] [((100 : ℝ), 100, 5, 5)] 25 6 3 =
      [((0 : ℝ), 0, 20, 0)] := by
  rw [add_room_closures]
  have hends : (([((0 : ℝ), 0, 20, 0)] : List Seg).flatMap fun s => [s.p1, s.p2]) =
      [((0 : ℝ), (0 : ℝ)), ((20 : ℝ), (0 : ℝ))] := by
    simp [Seg.p1, Seg.p2]
  rw [hends]
  have hc : closure_candidate [((100 : ℝ), 100, 5, 5)] 25 6 3
      ((0 : ℝ), (0 : ℝ)) ((20 : ℝ), (0 : ℝ)) = some ((0 : ℝ), 0, 20, 0) := by
    simp only [closure_candidate,
      snap_axis_horiz_pts 6 0 20 0 (by norm_num : (0 : ℝ) ≤ 6)]
    split_ifs with h1 h2 h3
    · exfalso; norm_num [dist2] at h2
    · exfalso
      obtain ⟨b, hb, hov⟩ := h3
      simp only [List.mem_singleton] at hb
      subst hb
      norm_num [box_overlap] at hov
    · norm_num
    · exfalso; norm_num [dist2] at h1
  simp only [closures_aux]
  rw [List.filterMap_cons_some hc]
  simp

/-- Witness for C6: a concrete synthesized closure and a concrete door box
for which the no-overlap guarantee is exercised. -/
theorem add_room_closures_no_door_overlap_witness :
    ((0 : ℝ), 0, 20, 0) ∈
      add_room_closures [((0 : ℝ), 0, 20, 0)] [((100 : ℝ), 100, 5, 5)] 25 6 3 ∧
    ((100 : ℝ), 100, 5, 5) ∈ [((100 : ℝ), (100 : ℝ), (5 : ℝ), (5 : ℝ))] ∧
    ¬box_overlap (Seg.p1 ((0 : ℝ), 0, 20, 0)) (Seg.p2 ((0 : ℝ), 0, 20, 0))
      ((100 : ℝ), 100, 5, 5) := by
  have hmem : ((0 : ℝ), 0, 20, 0) ∈
      add_room_closures [((0 : ℝ), 0, 20, 0)] [((100 : ℝ), 100, 5, 5)] 25 6 3 := by
    rw [closures_ex_far_box]; simp
  exact ⟨hmem, by simp,
    add_room_closures_no_door_overlap _ _ _ _ _ _ hmem _ (by simp)⟩

/-- The single near pair of the 5-px-gap scenario, with the pipeline's
`min_len_px = 12`: the snapped candidate has squared length 25 < 144 and
is discarded. -/
theorem closure_candidate_gap5_minlen12 :
    closure_candidate ([] : List Box) 8 6 12 ((20 : ℝ), (0 : ℝ))
      ((20 : ℝ), (5 : ℝ)) = none := by
  simp only [closure_candidate,
    snap_axis_vert_pts 6 20 0 5 (by norm_num : (0 : ℝ) ≤ 6)]
  split_ifs with h1 h2 h3
  · rfl
  · exfalso; norm_num [dist2] at h2
  · exfalso; norm_num [dist2] at h2
  · rfl

/-- The single near pair of the 5-px-gap scenario with `min_len_px = 4`:
the candidate survives and connects the two endpoints. -/
theorem closure_candidate_gap5_minlen4 :
    closure_candidate ([] : List Box) 8 6 4 ((20 : ℝ), (0 : ℝ))
      ((20 : ℝ), (5 : ℝ)) = some ((20 : ℝ), 0, 20, 5) := by
  simp only [closure_candidate,
    snap_axis_vert_pts 6 20 0 5 (by norm_num : (0 : ℝ) ≤ 6)]
  split_ifs with h1 h2 h3
  · exfalso; norm_num [dist2] at h2
  · exfalso; obtain ⟨b, hb, -⟩ := h3; simp at hb
  · norm_num
  · exfalso; norm_num [dist2] at h1

/-- C8 (counterexample): in the 5-px-gap scenario with `closePx = 8` and no
door box, the synthesizer emits no closure at all under the engine's
configured `minLenPx = 12` — every candidate within 8 px is shorter than
12 px and is discarded, contradicting "exactly one closing segment". -/
theorem closures_gap5_default_minlen_empty :
    add_room_closures [((0 : ℝ), 0, 20, 0), ((20 : ℝ), 5, 40, 5)] [] 8 6 12 =
      [] := by
  rw [add_room_closures]
  have hends : (([((0 : ℝ), 0, 20, 0), ((20 : ℝ), 5, 40, 5)] : List Seg).flatMap
      fun s => [s.p1, s.p2]) =
      [((0 : ℝ), (0 : ℝ)), ((20 : ℝ), (0 : ℝ)), ((20 : ℝ), (5 : ℝ)),
        ((40 : ℝ), (5 : ℝ))] := by
    simp [Seg.p1, Seg.p2]
  rw [hends]
  simp only [closures_aux]
  rw [List.filterMap_cons_none
      (closure_candidate_far _ _ _ _ _ _ (by norm_num [dist2])),
    List.filterMap_cons_none
      (closure_candidate_far _ _ _ _ _ _ (by norm_num [dist2])),
    List.filterMap_cons_none
      (closure_candidate_far _ _ _ _ _ _ (by norm_num [dist2])),
    List.filterMap_nil,
    List.filterMap_cons_none closure_candidate_gap5_minlen12,
    List.filterMap_cons_none
      (closure_candidate_far _ _ _ _ _ _ (by norm_num [dist2])),
    List.filterMap_nil,
    List.filterMap_cons_none
      (closure_candidate_far _ _ _ _ _ _ (by norm_num [dist2])),
    List.filterMap_nil]
  simp

/-- Evaluation of the 5-px-gap scenario with `min_len_px = 4`: exactly one
closing segment, connecting the two 5-px-apart endpoints. -/
theorem closures_gap5_eval4 :
    add_room_closures [((0 : ℝ), 0, 20, 0), ((20 : ℝ), 5, 40, 5)] [] 8 6 4 =
      [((20 : ℝ), 0, 20, 5)] := by
  rw [add_room_closures]
  have hends : (([((0 : ℝ), 0, 20, 0), ((20 : ℝ), 5, 40, 5)] : List Seg).flatMap
      fun s => [s.p1, s.p2]) =
      [((0 : ℝ), (0 : ℝ)), ((20 : ℝ), (0 : ℝ)), ((20 : ℝ), (5 : ℝ)),
        ((40 : ℝ), (5 : ℝ))] := by
    simp [Seg.p1, Seg.p2]
  rw [hends]
  simp only [closures_aux]
  rw [List.filterMap_cons_none
      (closure_candidate_far _ _ _ _ _ _ (by norm_num [dist2])),
    List.filterMap_cons_none
      (closure_candidate_far _ _ _ _ _ _ (by norm_num [dist2])),
    List.filterMap_cons_none
      (closure_candidate_far _ _ _ _ _ _ (by norm_num [dist2])),
    List.filterMap_nil,
    List.filterMap_cons_some closure_candidate_gap5_minlen4,
    List.filterMap_cons_none
      (closure_candidate_far _ _ _ _ _ _ (by norm_num [dist2])),
    List.filterMap_nil,
    List.filterMap_cons_none
      (closure_candidate_far _ _ _ _ _ _ (by norm_num [dist2])),
    List.filterMap_nil]
  simp

/-- C8 (amended): for two segment endpoints 5 px apart with `closePx = 8`
and no door box, the synthesizer emits exactly one closing segment
connecting them provided `minLenPx` does not exceed the gap length (here
`minLenPx = 4`); with the engine's configured `minLenPx = 12` the
candidate is discarded instead (see the counterexample). -/
theorem closures_gap5_one_segment :
    add_room_closures [((0 : ℝ), 0, 20, 0), ((20 : ℝ), 5, 40, 5)] [] 8 6 4 =
      [((20 : ℝ), 0, 20, 5)] :=
  closures_gap5_eval4

/-- The filter of `snap_filter` keeps a long-enough segment. -/
theorem snap_filter_cons_keep (ml : ℝ) (s : Seg) (l : List Seg)
    (h : seg_len2 s ≥ ml * ml) :
    List.filterMap
      (fun l0 => if seg_len2 l0 ≥ ml * ml then some l0 else none) (s :: l) =
    s :: List.filterMap
      (fun l0 => if seg_len2 l0 ≥ ml * ml then some l0 else none) l :=
  List.filterMap_cons_some (if_pos h)

/-- Every segment produced by the pair loop of `add_room_closures` has
squared length at least `min_len_px²`. -/
theorem closures_aux_minlen (boxes : List Box) (cp tol ml : ℝ) :
    ∀ (ends : List Pt) (s : Seg), s ∈ closures_aux boxes cp tol ml ends →
      ml * ml ≤ seg_len2 s := by
  intro ends
  induction ends with
  | nil => intro s hs; simp [closures_aux] at hs
  | cons e rest ih =>
    intro s hs
    rw [closures_aux, List.mem_append] at hs
    rcases hs with hs | hs
    · obtain ⟨f, -, heq⟩ := List.mem_filterMap.mp hs
      simp only [closure_candidate] at heq
      split_ifs at heq with h1 h2 h3
      obtain ⟨rfl⟩ := heq
      simp only [seg_len2, Seg.p1, Seg.p2]
      push_neg at h2
      simpa [Prod.mk.eta] using h2
    · exact ih s hs

/-- C3 (amended): `minLenPx` is enforced where the code checks it — the
snap-and-filter stage drops every snapped input shorter than `minLenPx`,
and the closure synthesizer discards every candidate shorter than
`minLenPx`.  (The merge and extension steps of `refine_lines` do not
re-check the bound and can leave shorter segments; see the
counterexample.) -/
theorem minlen_snap_filter_and_closures :
    (∀ (tol ml : ℝ) (lines : List Seg) (s : Seg),
        s ∈ snap_filter tol ml lines → ml * ml ≤ seg_len2 s) ∧
    (∀ (lines : List Seg) (boxes : List Box) (cp tol ml : ℝ) (s : Seg),
        s ∈ add_room_closures lines boxes cp tol ml →
          ml * ml ≤ seg_len2 s) := by
  constructor
  · intro tol ml lines s hs
    rw [snap_filter] at hs
    obtain ⟨l, -, heq⟩ := List.mem_filterMap.mp hs
    split_ifs at heq with h
    obtain ⟨rfl⟩ := heq
    exact h
  · intro lines boxes cp tol ml s hs
    rw [add_room_closures] at hs
    exact closures_aux_minlen boxes cp tol ml _ s hs

/-- `snap_filter` keeps a single long horizontal segment unchanged. -/
theorem snap_filter_ex_single :
    snap_filter 6 12 [((0 : ℝ), 0, 20, 0)] = [((0 : ℝ), 0, 20, 0)] := by
  rw [snap_filter, List.map_cons, List.map_nil,
    snap_seg_horiz 6 0 20 0 (by norm_num),
    snap_filter_cons_keep 12 _ _ (by norm_num [seg_len2, dist2, Seg.p1, Seg.p2]),
    List.filterMap_nil]

/-- Witness for C3 (amended): a concrete surviving snapped segment and a
concrete emitted closure, both meeting the bound. -/
theorem minlen_snap_filter_and_closures_witness :
    (((0 : ℝ), 0, 20, 0) ∈ snap_filter 6 12 [((0 : ℝ), 0, 20, 0)] ∧
      (12 : ℝ) * 12 ≤ seg_len2 ((0 : ℝ), 0, 20, 0)) ∧
    (((20 : ℝ), 0, 20, 5) ∈
        add_room_closures [((0 : ℝ), 0, 20, 0), ((20 : ℝ), 5, 40, 5)] [] 8 6 4 ∧
      (4 : ℝ) * 4 ≤ seg_len2 ((20 : ℝ), 0, 20, 5)) := by
  have hm1 : ((0 : ℝ), 0, 20, 0) ∈ snap_filter 6 12 [((0 : ℝ), 0, 20, 0)] := by
    rw [snap_filter_ex_single]; simp
  have hm2 : ((20 : ℝ), 0, 20, 5) ∈
      add_room_closures [((0 : ℝ), 0, 20, 0), ((20 : ℝ), 5, 40, 5)] [] 8 6 4 := by
    rw [closures_gap5_eval4]; simp
  exact ⟨⟨hm1, minlen_snap_filter_and_closures.1 6 12 _ _ hm1⟩,
    ⟨hm2, minlen_snap_filter_and_closures.2 _ [] 8 6 4 _ hm2⟩⟩

/-! ### Non-idempotence of `refine_lines` (C4 counterexample) -/

/-- `atan2` of a horizontal rightward direction is 0. -/
theorem atan2_zero_twenty : atan2 (0 : ℝ) 20 = 0 := by
  rw [atan2_of_pos (by norm_num : (0 : ℝ) < 20)]
  norm_num

/-- The two horizontal segments of the example are merge candidates. -/
theorem ex4_scan :
    merge_scan 6 36 ((0 : ℝ), 0, 20, 0) [((24 : ℝ), 3, 44, 3)] =
      some (((0 : ℝ), 0, 44, 3), []) := by
  have hshare : merge_share 36 ((0 : ℝ), 0, 20, 0) ((24 : ℝ), 3, 44, 3) := by
    simp only [merge_share, Seg.p1, Seg.p2, dist2]
    norm_num
  have hang : merge_angle_ok 6 ((0 : ℝ), 0, 20, 0) ((24 : ℝ), 3, 44, 3) := by
    rw [merge_angle_ok]
    norm_num [atan2_zero_twenty]
    left
    rw [radians]
    positivity
  have hpair : merge_pair ((0 : ℝ), 0, 20, 0) ((24 : ℝ), 3, 44, 3) =
      ((0 : ℝ), 0, 44, 3) := by
    simp only [merge_pair, pick_min, pick_max, List.foldl, Seg.p1, Seg.p2]
    norm_num
  simp only [merge_scan]
  rw [if_pos ⟨hshare, hang⟩, hpair]

/-- First run of `refine_lines` on the example: the two near-collinear
horizontal segments merge into the slightly sloped `(0,0)-(44,3)`. -/
theorem ex4_run1 :
    refine_lines [((0 : ℝ), 0, 20, 0), ((24 : ℝ), 3, 44, 3)] 6 6 10 12 =
      [((0 : ℝ), 0, 44, 3)] := by
  rw [refine_lines]
  have hsf : snap_filter 6 12 [((0 : ℝ), 0, 20, 0), ((24 : ℝ), 3, 44, 3)] =
      [((0 : ℝ), 0, 20, 0), ((24 : ℝ), 3, 44, 3)] := by
    rw [snap_filter, List.map_cons, List.map_cons, List.map_nil,
      snap_seg_horiz 6 0 20 0 (by norm_num),
      snap_seg_horiz 6 24 44 3 (by norm_num),
      snap_filter_cons_keep 12 _ _
        (by norm_num [seg_len2, dist2, Seg.p1, Seg.p2]),
      snap_filter_cons_keep 12 _ _
        (by norm_num [seg_len2, dist2, Seg.p1, Seg.p2]),
      List.filterMap_nil]
  rw [hsf, merge_loop_pair_some 6 (6 * 6) _ _ _ (by exact_mod_cast ex4_scan),
    extend_pass_singleton]

/-- The merged segment's angle: `arctan (3/44)` in degrees, which lies in
`(0°, 6°]`. -/
theorem ex4_angle : line_angle_deg_xy (0 : ℝ) 0 44 3 =
    degrees (Real.arctan (3 / 44)) := by
  rw [line_angle_deg_xy]
  norm_num
  rw [atan2_of_pos (by norm_num : (0 : ℝ) < 44)]
  have harct0 : 0 < Real.arctan (3 / 44) := by
    have := Real.arctan_strictMono (show (0 : ℝ) < 3 / 44 by norm_num)
    rwa [Real.arctan_zero] at this
  have harct : Real.arctan (3 / 44) ≤ π / 30 := by
    have hpi := Real.pi_gt_three
    have hpos : (0 : ℝ) < π / 30 := by linarith
    have hlt2 : π / 30 < π / 2 := by linarith
    have htan := Real.lt_tan hpos hlt2
    have h30 : (3 / 44 : ℝ) < π / 30 := by linarith
    have hmono := Real.arctan_strictMono (lt_trans h30 htan)
    rw [Real.arctan_tan (by linarith) hlt2] at hmono
    exact le_of_lt hmono
  have hdeg_pos : 0 < degrees (Real.arctan (3 / 44)) := by
    rw [degrees]
    have hpi := Real.pi_pos
    positivity
  have hdeg_le : degrees (Real.arctan (3 / 44)) ≤ 6 := by
    rw [degrees]
    have hpi := Real.pi_pos
    calc Real.arctan (3 / 44) * (180 / π) ≤ π / 30 * (180 / π) := by
          apply mul_le_mul_of_nonneg_right harct (by positivity)
      _ = 6 := by field_simp; ring
  rw [rmod_eq_sub _ _ 1 (by norm_num) (by push_cast; linarith)
    (by push_cast; linarith)]
  ring

/-- Bounds on the merged segment's angle, for reuse. -/
theorem ex4_angle_bounds : 0 < degrees (Real.arctan (3 / 44)) ∧
    degrees (Real.arctan (3 / 44)) ≤ 6 := by
  have harct0 : 0 < Real.arctan (3 / 44) := by
    have := Real.arctan_strictMono (show (0 : ℝ) < 3 / 44 by norm_num)
    rwa [Real.arctan_zero] at this
  have harct : Real.arctan (3 / 44) ≤ π / 30 := by
    have hpi := Real.pi_gt_three
    have hpos : (0 : ℝ) < π / 30 := by linarith
    have hlt2 : π / 30 < π / 2 := by linarith
    have htan := Real.lt_tan hpos hlt2
    have h30 : (3 / 44 : ℝ) < π / 30 := by linarith
    have hmono := Real.arctan_strictMono (lt_trans h30 htan)
    rw [Real.arctan_tan (by linarith) hlt2] at hmono
    exact le_of_lt hmono
  have hpi := Real.pi_pos
  constructor
  · rw [degrees]; positivity
  · rw [degrees]
    calc Real.arctan (3 / 44) * (180 / π) ≤ π / 30 * (180 / π) := by
          apply mul_le_mul_of_nonneg_right harct (by positivity)
      _ = 6 := by field_simp; ring

/-- On the second run, `snap_axis` forces the merged segment horizontal,
averaging the two `y`s to 1.5. -/
theorem ex4_snap2 : snap_axis ((0 : ℝ), (0 : ℝ)) ((44 : ℝ), (3 : ℝ)) 6 =
    (((0 : ℝ), (1.5 : ℝ)), ((44 : ℝ), (1.5 : ℝ))) := by
  obtain ⟨hpos, hle⟩ := ex4_angle_bounds
  have hang : line_angle_deg_xy ((0 : ℝ), (0 : ℝ)).1 ((0 : ℝ), (0 : ℝ)).2
      ((44 : ℝ), (3 : ℝ)).1 ((44 : ℝ), (3 : ℝ)).2 =
      degrees (Real.arctan (3 / 44)) := ex4_angle
  rw [snap_axis, hang]
  rw [if_pos (by
    rw [sub_zero, abs_of_pos hpos]
    exact min_le_iff.mpr (Or.inl hle))]
  rw [if_neg (by
    rw [sub_zero, abs_of_pos hpos,
      abs_of_neg (by linarith : degrees (Real.arctan (3 / 44)) - 90 < 0)]
    intro hlt
    linarith)]
  norm_num

/-- C4 (counterexample): `refine_lines` is not idempotent.  The first run
merges two horizontal segments at different heights into the sloped
segment `(0,0)-(44,3)`; the second run axis-snaps that segment to
`(0,1.5)-(44,1.5)`, changing the output. -/
theorem refine_lines_not_idempotent :
    refine_lines [((0 : ℝ), 0, 20, 0), ((24 : ℝ), 3, 44, 3)] 6 6 10 12 =
      [((0 : ℝ), 0, 44, 3)] ∧
    refine_lines [((0 : ℝ), 0, 44, 3)] 6 6 10 12 =
      [((0 : ℝ), 1.5, 44, 1.5)] ∧
    ([((0 : ℝ), 1.5, 44, 1.5)] : List Seg) ≠ [((0 : ℝ), 0, 44, 3)] := by
  refine ⟨ex4_run1, ?_, by intro h; simp at h; norm_num at h⟩
  rw [refine_lines]
  have hsnap : snap_seg 6 ((0 : ℝ), 0, 44, 3) = ((0 : ℝ), 1.5, 44, 1.5) := by
    rw [snap_seg]
    show ((snap_axis ((0 : ℝ), (0 : ℝ)) ((44 : ℝ), (3 : ℝ)) 6).1.1,
        (snap_axis ((0 : ℝ), (0 : ℝ)) ((44 : ℝ), (3 : ℝ)) 6).1.2,
        (snap_axis ((0 : ℝ), (0 : ℝ)) ((44 : ℝ), (3 : ℝ)) 6).2.1,
        (snap_axis ((0 : ℝ), (0 : ℝ)) ((44 : ℝ), (3 : ℝ)) 6).2.2) =
      ((0 : ℝ), 1.5, 44, 1.5)
    rw [ex4_snap2]
  have hsf : snap_filter 6 12 [((0 : ℝ), 0, 44, 3)] =
      [((0 : ℝ), 1.5, 44, 1.5)] := by
    rw [snap_filter, List.map_cons, List.map_nil, hsnap,
      snap_filter_cons_keep 12 _ _
        (by norm_num [seg_len2, dist2, Seg.p1, Seg.p2]),
      List.filterMap_nil]
  rw [hsf, merge_loop_singleton, extend_pass_singleton]

/-! ### The extension pass can shorten a segment below `min_len_px`
(C3 counterexample) -/

/-- Projection of the endpoint `(0,0)` onto the vertical segment
`(11,-20)-(11,2)`: parameter 10/11, foot `(11,0)`, too far to move. -/
theorem ex3_projA1 :
    project_on_segment ((0 : ℝ), (0 : ℝ)) ((11 : ℝ), (-20 : ℝ))
      ((11 : ℝ), (2 : ℝ)) = (((11 : ℝ), (0 : ℝ)), 10 / 11) := by
  simp only [project_on_segment]
  rw [if_neg (by norm_num)]
  norm_num [min_def, max_def]

/-- Projection of the endpoint `(12,0)` onto the vertical segment
`(11,-20)-(11,2)`: parameter 10/11, foot `(11,0)`, 1 px away. -/
theorem ex3_projA2 :
    project_on_segment ((12 : ℝ), (0 : ℝ)) ((11 : ℝ), (-20 : ℝ))
      ((11 : ℝ), (2 : ℝ)) = (((11 : ℝ), (0 : ℝ)), 10 / 11) := by
  simp only [project_on_segment]
  rw [if_neg (by norm_num)]
  norm_num [min_def, max_def]

/-- Projection of `(11,-20)` onto the shortened horizontal segment
`(0,0)-(11,0)`: the clamped parameter is exactly 1, so no move. -/
theorem ex3_projB1 :
    project_on_segment ((11 : ℝ), (-20 : ℝ)) ((0 : ℝ), (0 : ℝ))
      ((11 : ℝ), (0 : ℝ)) = (((11 : ℝ), (0 : ℝ)), 1) := by
  simp only [project_on_segment]
  rw [if_neg (by norm_num)]
  norm_num [min_def, max_def]

/-- Projection of `(11,2)` onto `(0,0)-(11,0)`: clamped parameter 1. -/
theorem ex3_projB2 :
    project_on_segment ((11 : ℝ), (2 : ℝ)) ((0 : ℝ), (0 : ℝ))
      ((11 : ℝ), (0 : ℝ)) = (((11 : ℝ), (0 : ℝ)), 1) := by
  simp only [project_on_segment]
  rw [if_neg (by norm_num)]
  norm_num [min_def, max_def]

/-- The first endpoint of the horizontal segment does not move (121 > 100). -/
theorem ex3_moveA1 :
    move_endpoint 100 ((0 : ℝ), (0 : ℝ)) [((11 : ℝ), -20, 11, 2)] =
      ((0 : ℝ), (0 : ℝ)) := by
  rw [move_endpoint]
  simp only [List.foldl, Seg.p1, Seg.p2]
  rw [ex3_projA1]
  rw [if_neg (by norm_num [dist2])]

/-- The second endpoint of the horizontal segment is pulled from `(12,0)`
to `(11,0)`. -/
theorem ex3_moveA2 :
    move_endpoint 100 ((12 : ℝ), (0 : ℝ)) [((11 : ℝ), -20, 11, 2)] =
      ((11 : ℝ), (0 : ℝ)) := by
  rw [move_endpoint]
  simp only [List.foldl, Seg.p1, Seg.p2]
  rw [ex3_projA2]
  rw [if_pos (by norm_num [dist2])]

/-- The vertical segment's endpoints do not move (parameter exactly 1). -/
theorem ex3_moveB1 :
    move_endpoint 100 ((11 : ℝ), (-20 : ℝ)) [((0 : ℝ), 0, 11, 0)] =
      ((11 : ℝ), (-20 : ℝ)) := by
  rw [move_endpoint]
  simp only [List.foldl, Seg.p1, Seg.p2]
  rw [ex3_projB1]
  rw [if_neg (by norm_num)]

/-- The vertical segment's other endpoint does not move either. -/
theorem ex3_moveB2 :
    move_endpoint 100 ((11 : ℝ), (2 : ℝ)) [((0 : ℝ), 0, 11, 0)] =
      ((11 : ℝ), (2 : ℝ)) := by
  rw [move_endpoint]
  simp only [List.foldl, Seg.p1, Seg.p2]
  rw [ex3_projB2]
  rw [if_neg (by norm_num)]

/-- The horizontal and vertical segments of the example are not merge
candidates: their orientations differ by 90°. -/
theorem ex3_scan :
    merge_scan 6 36 ((0 : ℝ), 0, 12, 0) [((11 : ℝ), -20, 11, 2)] = none := by
  have hnang : ¬merge_angle_ok 6 ((0 : ℝ), 0, 12, 0) ((11 : ℝ), -20, 11, 2) := by
    rw [merge_angle_ok]
    have h12 : atan2 (0 : ℝ) 12 = 0 := by
      rw [atan2_of_pos (by norm_num : (0 : ℝ) < 12)]; norm_num
    have h22 : atan2 (22 : ℝ) 0 = π / 2 :=
      atan2_pos_zero (by norm_num : (0 : ℝ) < 22)
    norm_num [h12, h22]
    have hpi := Real.pi_pos
    have habs2 : |π / 2| = π / 2 := abs_of_pos (by positivity)
    rw [habs2, radians]
    constructor <;> linarith
  simp only [merge_scan]
  rw [if_neg (fun hc => hnang hc.2)]

/-- The extension pass on the example: the horizontal segment's far
endpoint snaps onto the vertical wall, shortening it to 11 px. -/
theorem ex3_extend :
    extend_pass 100 [((0 : ℝ), 0, 12, 0), ((11 : ℝ), -20, 11, 2)] =
      [((0 : ℝ), 0, 11, 0), ((11 : ℝ), -20, 11, 2)] := by
  rw [extend_pass]
  have hr : List.range
      ([((0 : ℝ), 0, 12, 0), ((11 : ℝ), -20, 11, 2)] : List Seg).length =
      [0, 1] := by decide
  rw [hr]
  simp only [List.foldl, List.getElem?_cons_zero, List.getElem?_cons_succ,
    List.eraseIdx_cons_zero, List.eraseIdx_cons_succ, List.eraseIdx_nil,
    List.set_cons_zero, List.set_cons_succ, Seg.p1, Seg.p2]
  rw [ex3_moveA1, ex3_moveA2]
  simp only [List.getElem?_cons_zero, List.getElem?_cons_succ,
    List.eraseIdx_cons_zero, List.eraseIdx_cons_succ, List.eraseIdx_nil,
    List.set_cons_zero, List.set_cons_succ, Seg.p1, Seg.p2]
  rw [ex3_moveB1, ex3_moveB2]

/-- C3 (counterexample): `refine_lines` (snap, filter, merge, extension)
can output a segment shorter than `min_len_px`.  Both inputs pass the
12-px filter, no merge occurs, but the extension pass moves the endpoint
`(12,0)` onto the vertical segment at `(11,0)`, leaving an 11-px segment
in the output. -/
theorem refine_lines_short_output :
    refine_lines [((0 : ℝ), 0, 12, 0), ((11 : ℝ), -20, 11, 2)] 6 6 10 12 =
      [((0 : ℝ), 0, 11, 0), ((11 : ℝ), -20, 11, 2)] ∧
    seg_len2 ((0 : ℝ), 0, 11, 0) < 12 * 12 := by
  constructor
  · rw [refine_lines]
    have hsf : snap_filter 6 12 [((0 : ℝ), 0, 12, 0), ((11 : ℝ), -20, 11, 2)] =
        [((0 : ℝ), 0, 12, 0), ((11 : ℝ), -20, 11, 2)] := by
      rw [snap_filter, List.map_cons, List.map_cons, List.map_nil,
        snap_seg_horiz 6 0 12 0 (by norm_num),
        snap_seg_vert 6 11 (-20) 2 (by norm_num),
        snap_filter_cons_keep 12 _ _
          (by norm_num [seg_len2, dist2, Seg.p1, Seg.p2]),
        snap_filter_cons_keep 12 _ _
          (by norm_num [seg_len2, dist2, Seg.p1, Seg.p2]),
        List.filterMap_nil]
    rw [hsf, merge_loop_pair_none 6 (6 * 6) _ _ (by exact_mod_cast ex3_scan)]
    exact_mod_cast ex3_extend
  · norm_num [seg_len2, dist2, Seg.p1, Seg.p2]

/-! ### Arc-fitter bounds (C7) -/

/-- An accepted window satisfies the guard bounds of `_fit_circles`. -/
theorem fit_window_bounds {chunk : List Pt} {m cx cy r a0 a1 : ℝ}
    (h : fit_window chunk m = some (cx, cy, r, a0, a1)) :
    5 ≤ r ∧ r ≤ 1e5 ∧ m ≤ arc_extent a0 a1 := by
  rw [fit_window] at h
  cases hc : circle_center chunk with
  | none => rw [hc] at h; simp at h
  | some c =>
    rw [hc] at h
    simp only at h
    split_ifs at h with hg
    · obtain ⟨hg1, hg2, hg3⟩ := hg
      simp only [Option.some.injEq, Prod.mk.injEq] at h
      obtain ⟨-, -, hr, ha0, ha1⟩ := h
      subst hr; subst ha0; subst ha1
      exact ⟨le_of_lt hg2, le_of_lt hg3, hg1⟩

/-- Every arc emitted by the sliding-window loop satisfies the bounds. -/
theorem fit_loop_bounds (pts : List Pt) (n step : ℕ) (m : ℝ) :
    ∀ (fuel i : ℕ) (cx cy r a0 a1 : ℝ),
      (cx, cy, r, a0, a1) ∈ fit_loop pts n step m fuel i →
      5 ≤ r ∧ r ≤ 1e5 ∧ m ≤ arc_extent a0 a1 := by
  intro fuel
  induction fuel with
  | zero => intro i cx cy r a0 a1 h; simp [fit_loop] at h
  | succ f ih =>
    intro i cx cy r a0 a1 h
    rw [fit_loop] at h
    split_ifs at h with hcond
    · cases hfw : fit_window ((pts.drop i).take step) m with
      | none => rw [hfw] at h; exact ih _ _ _ _ _ _ h
      | some a =>
        rw [hfw] at h
        rcases List.mem_cons.mp h with heq | hmem
        · obtain ⟨acx, acy, ar, aa0, aa1⟩ := a
          rw [Prod.mk.injEq, Prod.mk.injEq, Prod.mk.injEq, Prod.mk.injEq]
            at heq
          obtain ⟨rfl, rfl, rfl, rfl, rfl⟩ := heq
          exact fit_window_bounds hfw
        · exact ih _ _ _ _ _ _ hmem
    · simp at h

/-- C7: every arc `(cx, cy, r, a0, a1)` emitted by `_fit_circles` has
radius in `[5, 10⁵]` (the code's guard is even strict) and angular extent
at least `min_arc_deg`; a window failing either bound never contributes. -/
theorem fit_circles_bounds (contour : List Pt) (m cx cy r a0 a1 : ℝ)
    (h : (cx, cy, r, a0, a1) ∈ fit_circles contour m) :
    5 ≤ r ∧ r ≤ 1e5 ∧ m ≤ arc_extent a0 a1 := by
  rw [fit_circles] at h
  split_ifs at h with hn
  · simp at h
  · exact fit_loop_bounds contour contour.length (max 8 (contour.length / 12))
      m contour.length 0 cx cy r a0 a1 h

/-- The first window of the witness contour: 8 lattice points on the
circle of radius 25 about the origin, beginning at `(25,0)` and ending at
`(0,25)`. -/
noncomputable def ex7_chunk : List Pt :=
  [((25 : ℝ), (0 : ℝ)), ((24 : ℝ), (7 : ℝ)), ((20 : ℝ), (15 : ℝ)),
   ((15 : ℝ), (20 : ℝ)), ((7 : ℝ), (24 : ℝ)), ((24 : ℝ), (-7 : ℝ)),
   ((20 : ℝ), (-15 : ℝ)), ((0 : ℝ), (25 : ℝ))]

/-- The witness contour: the window above plus one further lattice point
on the same circle. -/
noncomputable def ex7_pts : List Pt := ex7_chunk ++ [((-20 : ℝ), (-15 : ℝ))]

/-- The algebraic fit recovers the exact centre of the witness circle. -/
theorem ex7_center : circle_center ex7_chunk = some ((0 : ℝ), (0 : ℝ)) := by
  simp only [circle_center, ex7_chunk, List.map_cons, List.map_nil,
    List.sum_cons, List.sum_nil, List.zip_cons_cons, List.zip_nil_right,
    List.length_cons, List.length_nil]
  norm_num

/-- `Real.sqrt 625 = 25`, for the radius evaluation. -/
theorem sqrt_625 : Real.sqrt 625 = 25 := by
  rw [show (625 : ℝ) = 25 ^ 2 by norm_num, Real.sqrt_sq (by norm_num : (0 : ℝ) ≤ 25)]

/-- The angular extent from 0° to 90° is 90°. -/
theorem ex7_extent : arc_extent 0 90 = 90 := by
  rw [arc_extent, rmod_eq_sub _ _ 0 (by norm_num) (by norm_num) (by norm_num)]
  norm_num

/-- Full evaluation of the witness window: the fit accepts the arc
`(0, 0, 25, 0°, 90°)`. -/
theorem ex7_window : fit_window ex7_chunk 20 = some ((0 : ℝ), 0, 25, 0, 90) := by
  rw [fit_window, ex7_center]
  simp only [ex7_chunk, List.map_cons, List.map_nil, List.sum_cons,
    List.sum_nil, List.headD, List.getLastD, List.length_cons, List.length_nil]
  have ha0 : degrees (atan2 ((0 : ℝ) - 0) ((25 : ℝ) - 0)) = 0 := by
    norm_num
    rw [atan2_of_pos (by norm_num : (0 : ℝ) < 25)]
    norm_num [degrees]
  have ha1 : degrees (atan2 ((25 : ℝ) - 0) ((0 : ℝ) - 0)) = 90 := by
    norm_num
    rw [atan2_pos_zero (by norm_num : (0 : ℝ) < 25)]
    exact degrees_pi_div_two
  rw [ha0, ha1]
  norm_num [sqrt_625, ex7_extent]

/-- One unfolding of the sliding-window loop. -/
theorem fit_loop_succ (pts : List Pt) (n step : ℕ) (m : ℝ) (f i : ℕ) :
    fit_loop pts n step m (f + 1) i =
      if i + step < n then
        match fit_window ((pts.drop i).take step) m with
        | some a => a :: fit_loop pts n step m f (i + step / 2)
        | none => fit_loop pts n step m f (i + step / 2)
      else [] := rfl

/-- Full evaluation of `_fit_circles` on the witness contour: exactly one
arc, from the single window `[0, 8)`. -/
theorem ex7_eval : fit_circles ex7_pts 20 = [((0 : ℝ), 0, 25, 0, 90)] := by
  rw [fit_circles]
  have hlen : ex7_pts.length = 9 := by simp [ex7_pts, ex7_chunk]
  rw [hlen, if_neg (by norm_num)]
  have hstep : max 8 (9 / 12) = 8 := by norm_num
  rw [hstep]
  have hchunk : (ex7_pts.drop 0).take 8 = ex7_chunk := by
    simp [ex7_pts, ex7_chunk]
  rw [show (9 : ℕ) = 8 + 1 from rfl, fit_loop_succ,
    if_pos (by norm_num : 0 + 8 < 9), hchunk, ex7_window]
  rw [show (0 + 8 / 2 : ℕ) = 4 from by norm_num]
  rw [show (8 : ℕ) = 7 + 1 from rfl, fit_loop_succ,
    if_neg (by norm_num : ¬4 + 8 < 9)]

/-- Witness for C7: the emitted arc of the witness contour meets all
three bounds. -/
theorem fit_circles_bounds_witness :
    ((0 : ℝ), 0, 25, 0, 90) ∈ fit_circles ex7_pts 20 ∧
    5 ≤ (25 : ℝ) ∧ (25 : ℝ) ≤ 1e5 ∧ (20 : ℝ) ≤ arc_extent 0 90 := by
  have hmem : ((0 : ℝ), 0, 25, 0, 90) ∈ fit_circles ex7_pts 20 := by
    rw [ex7_eval]; simp
  exact ⟨hmem, fit_circles_bounds ex7_pts 20 0 0 25 0 90 hmem⟩

end DraftEngine
